import Mathlib

/-!
Verification development for the Clarilab/envi configuration-loading library
(declarative struct-population engine, revision with content-hash cache,
error channel and directory-level file watchers).

The Go code is shallowly embedded: reflective struct traversal becomes
explicit traversal of a symbolic field list, the mutable Envi value becomes
explicit state passing, goroutine loop bodies become step functions on a
loop-state type, and Go panics become explicit outcomes.  External
collaborators (os.Getenv, os.ReadFile, fsnotify, the yaml/json decoders,
the md5 hash) are modelled by explicit parameters or by simple functions
whose modelling assumptions are stated in their doc comments.
-/

/-- Models strings.Trim(s, cutset) for the one-character cutset used by the
source: drops every leading and every trailing occurrence of the cut
character (strings.Trim trims both ends, not only the trailing end). -/
def goTrim (s : String) (cut : Char) : String :=
  String.mk (((s.data.dropWhile (fun c => c = cut)).reverse.dropWhile (fun c => c = cut)).reverse)

/-- Splits a character list at every occurrence of the separator; the
building block of the path helpers below. -/
def splitOnChar (c : Char) : List Char → List (List Char)
  | [] => [[]]
  | x :: xs =>
      let r := splitOnChar c xs
      if x = c then [] :: r
      else
        match r with
        | [] => [[x]]
        | seg :: rest => (x :: seg) :: rest

/-- Models filepath.Base on clean slash-separated paths: the component after
the final slash.  The cleaning performed by the Go standard library on
degenerate paths (trailing slashes, empty path) is not modelled; all paths
appearing in the claims are clean absolute paths. -/
def goBase (p : String) : String :=
  String.mk ((splitOnChar '/' p.data).getLastD p.data)

/-- Models filepath.Dir on clean slash-separated absolute paths with at least
two components: everything before the final slash. -/
def goDir (p : String) : String :=
  String.mk (List.intercalate ['/'] ((splitOnChar '/' p.data).dropLast))

/-- Models filepath.Abs: an absolute path (leading slash) is returned as is,
a relative path is joined to the working directory.  Lexical cleaning is
not modelled. -/
def goAbs (cwd p : String) : String :=
  if p.data.head? = some '/' then p else cwd ++ "/" ++ p

/-- Models cmp.Or on strings: the first argument unless it is the zero value
(the empty string), in which case the second. -/
def cmpOr (a b : String) : String :=
  if a = "" then b else a

/-- Numeric value of a digit list, most significant first. -/
def digitsVal (cs : List Char) : Nat :=
  cs.foldl (fun a c => a * 10 + (c.toNat - 48)) 0

/-- Parses a non-empty all-digit character list to a natural number. -/
def parseDigits (cs : List Char) : Option Nat :=
  if cs.isEmpty then none
  else if cs.all (fun c => c.isDigit) then some (digitsVal cs) else none

/-- Models strconv.ParseInt(s, 10, 64): optional sign followed by decimal
digits, rejected on 64-bit overflow.  The clamped value that the Go function
returns together with its range error is not modelled, because the source
discards the value whenever the error is non-nil. -/
def goParseInt (s : String) : Option Int :=
  match s.data with
  | '+' :: rest =>
      (parseDigits rest).bind (fun n =>
        if n ≤ 9223372036854775807 then some (Int.ofNat n) else none)
  | '-' :: rest =>
      (parseDigits rest).bind (fun n =>
        if n ≤ 9223372036854775808 then some (-(Int.ofNat n)) else none)
  | cs =>
      (parseDigits cs).bind (fun n =>
        if n ≤ 9223372036854775807 then some (Int.ofNat n) else none)

/-- Models strconv.ParseBool: exactly the thirteen accepted literals. -/
def goParseBool (s : String) : Option Bool :=
  if s = "1" || s = "t" || s = "T" || s = "TRUE" || s = "true" || s = "True" then some true
  else if s = "0" || s = "f" || s = "F" || s = "FALSE" || s = "false" || s = "False" then
    some false
  else none

/-- Models strconv.ParseFloat on the plain decimal fragment (optional sign,
digits, optional fractional part), with exact rational semantics.  IEEE
rounding, exponents, hexadecimal floats and the special values are
abstracted away; no claim exercises float parsing. -/
def goParseFloat (s : String) : Option ℚ :=
  let unsigned : List Char → Option ℚ := fun cs =>
    match cs.splitOn '.' with
    | [a] => (parseDigits a).map (fun n => (n : ℚ))
    | [a, b] =>
        if a.all (fun c => c.isDigit) && b.all (fun c => c.isDigit)
            && (!a.isEmpty || !b.isEmpty) then
          some ((digitsVal a : ℚ) + (digitsVal b : ℚ) / (10 : ℚ) ^ b.length)
        else none
    | _ => none
  match s.data with
  | '+' :: rest => unsigned rest
  | '-' :: rest => (unsigned rest).map (fun q => -q)
  | cs => unsigned cs

/-- Inserts or replaces a key in an association list (models assignment to a
Go map entry; iteration order is modelled as insertion order). -/
def alistInsert {α : Type} : List (String × α) → String → α → List (String × α)
  | [], k, v => [(k, v)]
  | (k2, v2) :: rest, k, v =>
      if k2 = k then (k, v) :: rest else (k2, v2) :: alistInsert rest k v

/-- Runtime value of a scalar Go field.  Floats are modelled as exact
rationals, see goParseFloat. -/
inductive GoValue : Type
  | str (s : String)
  | int (n : Int)
  | float (q : ℚ)
  | bool (b : Bool)
deriving DecidableEq, Repr

/-- Models reflect.Value.IsZero on scalar values. -/
def GoValue.isZero : GoValue → Bool
  | .str s => s = ""
  | .int n => n = 0
  | .float q => q = 0
  | .bool b => b = false

/-- Reflect kind of a scalar sub-field of a file-backed nested record. -/
inductive SubKind : Type
  | str
  | i32
  | i64
  | f32
  | f64
  | bool
  | other (kindName : String)
deriving DecidableEq, Repr

/-- One immediate sub-field of a file-backed nested record, as seen by the
reflective traversal: its (tag-resolved) key name, reflect kind, the
recognized struct tags and its current value.  Sub-fields are modelled as
exported; setting an unexported sub-field through reflection would panic and
no claim exercises that. -/
structure SubField : Type where
  name : String
  kind : SubKind
  defaultTag : String := ""
  requiredTag : String := ""
  value : GoValue
deriving DecidableEq, Repr

/-- Errors of the envi package, mirroring errors.go plus the generic wrapped
I/O and decode failures.  The wrapped constructor models fmt.Errorf with a
trailing %w verb. -/
inductive EnviErr : Type
  | invalidKind (fieldName expected got : String)
  | invalidTag (tag : String)
  | missingTag (tag : String)
  | parsing (ty : String)
  | fieldRequired (fieldName : String)
  | readFile (path : String)
  | decode (msg : String)
  | addWatch (msg : String)
  | fsnotify (msg : String)
  | wrapped (msg : String) (e : EnviErr)
deriving DecidableEq, Repr

/-- File content as delivered by os.ReadFile.  A raw constructor carries the
bytes of a text file; a keyed constructor stands for bytes whose yaml/json
parse is the given key-to-value mapping (parsing by the external yaml/json
libraries is abstracted; the raw bytes of structured content are not
tracked). -/
inductive Content : Type
  | raw (s : String)
  | keyed (kvs : List (String × GoValue))
deriving DecidableEq, Repr

/-- Content hashes.  The md5 fingerprint is modelled as an injective hash,
so a hash is represented by the content itself and hash equality coincides
with content equality. -/
def md5Hex (c : Content) : Content := c

/-- Result of an unmarshalFunc: the updated field list together with an
optional error; mutations performed before a failure persist, matching the
in-place reflective writes of the Go decoders. -/
def UnmarshalFn : Type :=
  Content → List SubField → List SubField × Option EnviErr

/-- Models yaml.Unmarshal and json.Unmarshal of a mapping into a struct:
every sub-field whose key appears in the mapping is set to the mapped value,
every other sub-field is left untouched (absent keys do not reset fields).
Raw bytes that do not parse as a mapping produce a decode error. -/
def unmarshalKeyed : UnmarshalFn := fun c fields =>
  match c with
  | .keyed kvs =>
      (fields.map (fun f =>
        match kvs.lookup f.name with
        | some v => { f with value := v }
        | none => f), none)
  | .raw _ => (fields, some (.decode "cannot unmarshal into struct"))

/-- Sets the first string-kind sub-field to the given value; reports whether
one was found (the valueSet flag of the source). -/
def setFirstString : List SubField → String → List SubField × Bool
  | [], _ => ([], false)
  | f :: fs, v =>
      if f.kind = SubKind.str then ({ f with value := .str v } :: fs, true)
      else
        let r := setFirstString fs v
        (f :: r.1, r.2)

/-- Direct translation of unmarshalText: trims leading and trailing newline
characters from the file content (strings.Trim with cutset newline), writes
the result into the first string-kind sub-field, and fails when the record
has no string-kind sub-field.  Keyed content stands for structured bytes
whose raw form the model does not track; no claim decodes structured bytes
as text. -/
def unmarshalText : UnmarshalFn := fun c fields =>
  match c with
  | .raw s =>
      let val := goTrim s '\n'
      let r := setFirstString fields val
      if r.2 then (r.1, none)
      else (r.1, some (.decode "failed to find target value for text file"))
  | .keyed _ => (fields, some (.decode "failed to find target value for text file"))

/-- Translation of the per-field body of handleDefaults: for a non-empty
default tag, parse the tag text according to the field kind and assign it;
parse failures yield a ParsingError, unsupported kinds an InvalidKindError.
Fields without a default tag are untouched. -/
def applyDefault (f : SubField) : SubField × Option EnviErr :=
  if f.defaultTag = "" then (f, none)
  else
    match f.kind with
    | .i32 | .i64 =>
        match goParseInt f.defaultTag with
        | some n => ({ f with value := .int n }, none)
        | none => (f, some (.parsing "int"))
    | .f32 | .f64 =>
        match goParseFloat f.defaultTag with
        | some q => ({ f with value := .float q }, none)
        | none => (f, some (.parsing "float"))
    | .str => ({ f with value := .str f.defaultTag }, none)
    | .bool =>
        match goParseBool f.defaultTag with
        | some b => ({ f with value := .bool b }, none)
        | none => (f, some (.parsing "bool"))
    | .other kindName =>
        (f, some (.invalidKind f.name "string, int, float, bool" kindName))

/-- Translation of handleDefaults: applies applyDefault to the sub-fields in
order, stopping at the first failure; sub-fields after the failure keep
their previous values (the Go loop mutates in place and returns early). -/
def handleDefaults : List SubField → List SubField × Option EnviErr
  | [] => ([], none)
  | f :: fs =>
      match applyDefault f with
      | (f2, none) =>
          let r := handleDefaults fs
          (f2 :: r.1, r.2)
      | (f2, some e) => (f2 :: fs, some (.wrapped "error while handling defaults" e))

/-- One registered filesystem-watch handle (fsnotify.Watcher) together with
its cancellation scope.  The outcome of a later call to watcher.Close is
part of the external environment and is recorded at creation time. -/
structure WatcherInst : Type where
  closeErr : Option String := none
deriving DecidableEq, Repr

/-- The Envi value: the buffered error channel (capacity 100), its closed
flag, the directory-keyed watcher map, the content-hash cache, and the list
of reload loops that have been started (the Go code starts one goroutine per
watched field; the model records the watched path of each started loop). -/
structure Envi : Type where
  errorChan : List EnviErr := []
  errorChanClosed : Bool := false
  fileWatchers : List (String × WatcherInst) := []
  fileHashes : List (String × Content) := []
  launchedLoops : List String := []
deriving DecidableEq, Repr

/-- Translation of New. -/
def New : Envi := {}

/-- External environment of one Load call: os.Getenv (returning the empty
string for unset variables, exactly as Go does), the working directory used
by filepath.Abs, os.ReadFile, and the outcomes of watcher.Add and
watcher.Close per directory (fsnotify.NewWatcher is modelled as succeeding;
its failure is environmental and exercised by no claim). -/
structure Sys : Type where
  env : String → String
  cwd : String := "/work"
  fs : String → Option Content
  addErr : String → Option String := fun _ => none
  closeErr : String → Option String := fun _ => none

/-- Result of loadFile: the callOnChange flag, the sub-field list and Envi
state as mutated up to the point of return, and the returned error. -/
structure LoadFileOut : Type where
  callOnChange : Bool
  field : List SubField
  envi : Envi
  err : Option EnviErr
deriving DecidableEq, Repr

/-- Translation of the loadFile method (revision with the content-hash
cache): apply defaults, read the file, compare the content hash with the
cached hash for the path and return early without unmarshaling when they
are equal; otherwise store the new hash and then unmarshal.  Note that the
hash entry is written before the unmarshal is attempted, and that defaults
have already been applied on every path out of this function. -/
def loadFile (e : Envi) (field : List SubField) (path : String) (sys : Sys)
    (unmarshal : UnmarshalFn) : LoadFileOut :=
  match handleDefaults field with
  | (field2, some err) => ⟨false, field2, e, some (.wrapped "error while loading file" err)⟩
  | (field2, none) =>
      match sys.fs path with
      | none => ⟨false, field2, e, some (.wrapped "error while loading file" (.readFile path))⟩
      | some blob =>
          let newHash := md5Hex blob
          if e.fileHashes.lookup path = some newHash then
            ⟨false, field2, e, none⟩
          else
            let e2 := { e with fileHashes := alistInsert e.fileHashes path newHash }
            match unmarshal blob field2 with
            | (field3, some err) =>
                ⟨false, field3, e2, some (.wrapped "error while loading file" err)⟩
            | (field3, none) => ⟨true, field3, e2, none⟩

/-- Translation of watchFile: one watcher per parent directory, created only
when the directory has no entry yet; one reload loop started per watched
field.  When watcher.Add fails the watcher is closed and an error returned
before the loop for this field is started (the map entry remains, as in the
source). -/
def watchFile (sys : Sys) (e : Envi) (path : String) : Envi × Option EnviErr :=
  let dirPath := goDir path
  match e.fileWatchers.lookup dirPath with
  | some _ =>
      ({ e with launchedLoops := e.launchedLoops ++ [path] }, none)
  | none =>
      let e2 := { e with
        fileWatchers := alistInsert e.fileWatchers dirPath ⟨sys.closeErr dirPath⟩ }
      match sys.addErr dirPath with
      | some m => (e2, some (.wrapped "error while watching file" (.addWatch m)))
      | none => ({ e2 with launchedLoops := e2.launchedLoops ++ [path] }, none)

/-- Translation of the Close method: closing the error channel first (a
second call therefore panics with close of closed channel, before any
watcher is touched), then cancelling and closing every watcher, collecting
every individual close failure; a CloseError aggregates them.  Go map
iteration order is abstracted to insertion order. -/
inductive CloseRes : Type
  | ok
  | closeError (msgs : List String)
  | panicked (msg : String)
deriving DecidableEq, Repr

/-- Translation of Close, threading the mutated Envi value. -/
def Close (e : Envi) : CloseRes × Envi :=
  if e.errorChanClosed then (.panicked "close of closed channel", e)
  else
    let e2 := { e with errorChanClosed := true }
    let msgs := e2.fileWatchers.filterMap (fun pr =>
      pr.2.closeErr.map (fun m =>
        "failed to close watcher for file " ++ pr.1 ++ " with error: " ++ m))
    if msgs.isEmpty then (.ok, e2) else (.closeError msgs, e2)

/-- Shape of a root-level field value once pointers are resolved: a plain
string, a nested record (list of scalar sub-fields), or any other Go kind,
carrying the reflect type name and kind string used in error messages. -/
inductive FieldVal : Type
  | str (s : String)
  | strukt (sub : List SubField)
  | other (typeName kindName : String) (zero : Bool)
deriving DecidableEq, Repr

/-- A root-level field reference as reflect sees it: either the value
directly, or a chain of pointers that may end in nil (nilPtr models a nil
pointer, ptrTo a non-nil pointer to the referenced value). -/
inductive GoFieldRef : Type
  | direct (v : FieldVal)
  | nilPtr
  | ptrTo (r : GoFieldRef)
deriving DecidableEq, Repr

/-- Result of resolveValuePointer: reflect.Value.Elem on a nil pointer is
the zero Value, whose kind is Invalid and which the recursion returns as
is; the function never allocates. -/
inductive Resolved : Type
  | val (v : FieldVal)
  | invalid
deriving DecidableEq, Repr

/-- Translation of resolveValuePointer: dereferences pointers recursively
(every level, not just one); a nil pointer dereferences to the invalid zero
Value. -/
def resolveValuePointer : GoFieldRef → Resolved
  | .direct v => .val v
  | .nilPtr => .invalid
  | .ptrTo r => resolveValuePointer r

/-- Writes a new value back through the pointer chain that
resolveValuePointer followed (reflect values alias the pointed-to memory,
so writes through the resolved value land in the original field). -/
def setResolved : GoFieldRef → FieldVal → GoFieldRef
  | .direct _, v => .direct v
  | .nilPtr, _ => .nilPtr
  | .ptrTo r, v => .ptrTo (setResolved r v)

/-- Models reflect.Value.IsZero on an unresolved field reference: a nil
pointer is zero, a non-nil pointer is not, a direct value is zero when its
content is. -/
def refIsZero : GoFieldRef → Bool
  | .direct (.str s) => s = ""
  | .direct (.strukt sub) => sub.all (fun f => f.value.isZero)
  | .direct (.other _ _ z) => z
  | .nilPtr => true
  | .ptrTo _ => false

/-- One field of the root config record: its Go name, whether it is
exported (CanSet), its recognized struct tags, and its value reference. -/
structure RootField : Type where
  name : String
  exported : Bool := true
  defaultTag : String := ""
  envTag : String := ""
  typeTag : String := ""
  requiredTag : String := ""
  watchTag : String := ""
  val : GoFieldRef
deriving DecidableEq, Repr

/-- Translation of the unmarshalMap lookup keyed by the resolved type tag. -/
def unmarshalFor (typeVal : String) : Option UnmarshalFn :=
  if typeVal = "yaml" then some unmarshalKeyed
  else if typeVal = "yml" then some unmarshalKeyed
  else if typeVal = "json" then some unmarshalKeyed
  else if typeVal = "text" then some unmarshalText
  else none

/-- Outcome of processing one root field inside the loadConfig loop. -/
inductive FieldRes : Type
  | ok (f : RootField) (e : Envi)
  | err (f : RootField) (e : Envi) (err : EnviErr)
  | panicked (msg : String)
deriving DecidableEq, Repr

/-- Translation of the body of the loadConfig field loop: skip unexported
fields, resolve pointer indirection, require an env or default tag, then
dispatch on the resolved kind.  A nested record resolves its file path from
the environment override or the default tag, turns it absolute, picks the
decoder from the type tag (yaml when absent), loads the file and registers
a watch when the watch tag is true.  A plain string is set from the
environment override or the default tag.  Any other kind produces an
InvalidKindError; building that error calls reflect.Value.Type on the
field, which panics when pointer resolution ended in the invalid zero
Value, that is, when the field was a nil pointer. -/
def processField (sys : Sys) (e : Envi) (f : RootField) : FieldRes :=
  if !f.exported then .ok f e
  else if f.envTag = "" ∧ f.defaultTag = "" then
    .err f e (.missingTag "env or default")
  else
    match resolveValuePointer f.val with
    | .val (.strukt sub) =>
        let path := goAbs sys.cwd (cmpOr (sys.env f.envTag) f.defaultTag)
        let typeVal := cmpOr f.typeTag "yaml"
        match unmarshalFor typeVal with
        | none => .err f e (.invalidTag "type")
        | some um =>
            let r := loadFile e sub path sys um
            let f2 := { f with val := setResolved f.val (.strukt r.field) }
            match r.err with
            | some err => .err f2 r.envi err
            | none =>
                if f.watchTag = "true" then
                  match watchFile sys r.envi path with
                  | (e2, some err) => .err f2 e2 err
                  | (e2, none) => .ok f2 e2
                else .ok f2 r.envi
    | .val (.str _) =>
        if f.envTag = "" ∧ f.defaultTag = "" then
          .err f e (.missingTag "env or default")
        else
          .ok { f with val := setResolved f.val (.str (cmpOr (sys.env f.envTag) f.defaultTag)) } e
    | .val (.other typeName kindName _) =>
        .err f e (.invalidKind typeName "string, struct" kindName)
    | .invalid => .panicked "reflect: call of reflect.Value.Type on zero Value"

/-- Outcome of loadConfig over the whole field list, threading mutations. -/
inductive CfgRes : Type
  | ok (cfg : List RootField) (e : Envi)
  | err (cfg : List RootField) (e : Envi) (err : EnviErr)
  | panicked (msg : String)
deriving DecidableEq, Repr

/-- Translation of the loadConfig field loop: fields in order, stopping at
the first error; fields after the stop keep their previous values. -/
def loadConfigFields (sys : Sys) (e : Envi) : List RootField → CfgRes
  | [] => .ok [] e
  | f :: fs =>
      match processField sys e f with
      | .ok f2 e2 =>
          match loadConfigFields sys e2 fs with
          | .ok fs2 e3 => .ok (f2 :: fs2) e3
          | .err fs2 e3 err => .err (f2 :: fs2) e3 err
          | .panicked m => .panicked m
      | .err f2 e2 err =>
          .err (f2 :: fs) e2 (.wrapped "error while loading config" err)
      | .panicked m => .panicked m

/-- The argument handed to Load, before the pointer and struct checks of
loadConfig: the Go value graph rooted at the caller argument (nilPtr models
a nil pointer, ptrTo a non-nil pointer). -/
inductive GoRoot : Type
  | strukt (fields : List RootField)
  | strVal (s : String)
  | nilPtr
  | ptrTo (r : GoRoot)
deriving Repr

/-- Models the reflect kind string of a root argument. -/
def GoRoot.kindName : GoRoot → String
  | .strukt _ => "struct"
  | .strVal _ => "string"
  | .nilPtr => "ptr"
  | .ptrTo _ => "ptr"

/-- Resolution of the root pointer chain, mirroring resolveValuePointer at
the root; none models the invalid zero Value reached through a nil
pointer. -/
def resolveRoot : GoRoot → Option GoRoot
  | .nilPtr => none
  | .ptrTo r => resolveRoot r
  | r => some r

/-- Translation of loadConfig: the argument must be a pointer, resolve it,
the target must be a struct, then run the field loop.  Errors are wrapped
with the loadConfig message (the per-field wrap already happened in the
loop; the top-level checks wrap here). -/
def loadConfig (sys : Sys) (e : Envi) (config : GoRoot) : CfgRes :=
  match config with
  | .ptrTo r =>
      match resolveRoot r with
      | some (.strukt fields) => loadConfigFields sys e fields
      | some r2 =>
          .err [] e (.wrapped "error while loading config"
            (.invalidKind "" "struct" r2.kindName))
      | none =>
          .err [] e (.wrapped "error while loading config"
            (.invalidKind "" "struct" "invalid"))
  | .nilPtr =>
      .err [] e (.wrapped "error while loading config"
        (.invalidKind "" "struct" "invalid"))
  | r =>
      .err [] e (.wrapped "error while loading config"
        (.invalidKind "" "pointer" r.kindName))

/-- Translation of the required check applied to the scalar sub-fields of a
nested record when validate recurses into it: a sub-field tagged required
true whose value is the zero value of its type yields a FieldRequiredError
naming the field; results are accumulated in field order. -/
def validateSubFields : List SubField → List EnviErr
  | [] => []
  | f :: fs =>
      (if f.requiredTag = "true" ∧ f.value.isZero then [EnviErr.fieldRequired f.name] else [])
        ++ validateSubFields fs

/-- Outcome of validate: the accumulated violation list, or a panic.  The
recursive call validate(field.Interface()) panics when the struct-kind
field is unexported, because reflect.Value.Interface refuses values
obtained from unexported fields. -/
inductive ValidateRes : Type
  | ok (errs : List EnviErr)
  | panicked (msg : String)
deriving DecidableEq, Repr

/-- Translation of the validate loop over the root fields: a struct-kind
field (not pointer-resolved) first contributes the violations of its
sub-fields via the recursive call, then every field contributes its own
required check; unexported struct-kind fields panic in the Interface
call. -/
def validateFields : List RootField → ValidateRes
  | [] => .ok []
  | f :: fs =>
      let own :=
        if f.requiredTag = "true" ∧ refIsZero f.val then [EnviErr.fieldRequired f.name]
        else []
      match f.val with
      | .direct (.strukt sub) =>
          if !f.exported then
            .panicked "reflect.Value.Interface: cannot return value obtained from unexported field or method"
          else
            match validateFields fs with
            | .ok rest => .ok (validateSubFields sub ++ own ++ rest)
            | .panicked m => .panicked m
      | _ =>
          match validateFields fs with
          | .ok rest => .ok (own ++ rest)
          | .panicked m => .panicked m

/-- Translation of validate at the root: resolve the pointer, then walk the
struct fields; a non-struct target would panic in NumField (never reached
through Load, which only validates after loadConfig succeeded). -/
def validate (config : GoRoot) : ValidateRes :=
  match resolveRoot config with
  | some (.strukt fields) => validateFields fields
  | _ => .panicked "reflect: NumField of non-struct type"

/-- Outcome of Load: success, a wrapped loadConfig error, a wrapped
ValidationError aggregating the required-field violations, or a panic. -/
inductive LoadRes : Type
  | ok (cfg : List RootField) (e : Envi)
  | errLoad (cfg : List RootField) (e : Envi) (err : EnviErr)
  | errValidation (cfg : List RootField) (e : Envi) (errs : List EnviErr)
  | panicked (msg : String)
deriving DecidableEq, Repr

/-- Translation of Load: run loadConfig, abort on its error; then validate
the populated record and return a ValidationError exactly when the
violation list is non-empty.  Both errors are wrapped with the getting
config message. -/
def Load (sys : Sys) (e : Envi) (config : GoRoot) : LoadRes :=
  match loadConfig sys e config with
  | .panicked m => .panicked m
  | .err cfg e2 err => .errLoad cfg e2 (.wrapped "error while getting config" err)
  | .ok cfg e2 =>
      match validateFields cfg with
      | .panicked m => .panicked m
      | .ok errs =>
          if errs.isEmpty then .ok cfg e2 else .errValidation cfg e2 errs

/-- One filesystem event as delivered by fsnotify: the full path of the
affected file and its operation bits. -/
structure FsEvent : Type where
  name : String
  create : Bool := false
  write : Bool := false
  remove : Bool := false
  rename : Bool := false
  chmod : Bool := false
deriving DecidableEq, Repr

/-- One item received by the select of the reload loop: context
cancellation, an event (or the event channel closing), or a watcher error
(or the error channel closing). -/
inductive LoopInput : Type
  | ctxDone
  | eventsClosed
  | ev (event : FsEvent)
  | errorsClosed
  | watchErr (msg : String)
deriving DecidableEq, Repr

/-- State of one reload-loop goroutine: the shared Envi value, the live
nested record it reloads into, and whether the goroutine-local mutex is
currently held (the source allocates one mutex per loop and never shares
it). -/
structure LoopSt : Type where
  envi : Envi
  field : List SubField
  locked : Bool := false
deriving DecidableEq, Repr

/-- Callbacks invoked during one loop iteration: whether OnChange was
called and the error OnError was called with, if any. -/
structure StepOut : Type where
  onChange : Bool := false
  onError : Option EnviErr := none
deriving DecidableEq, Repr

/-- Result of one loop iteration: continue with a new state, return (loop
ends), block forever trying to acquire the already-held mutex, or panic. -/
inductive StepRes : Type
  | cont (s : LoopSt) (out : StepOut)
  | ret
  | blocked (s : LoopSt)
  | panicked (msg : String)
deriving DecidableEq, Repr

/-- Models the non-blocking send on the buffered error channel (select with
a default branch): the error is appended when there is space, silently
dropped when the channel is full, and a send on a closed channel panics
(none). -/
def chanSend (e : Envi) (err : EnviErr) : Option Envi :=
  if e.errorChanClosed then none
  else if e.errorChan.length < 100 then some { e with errorChan := e.errorChan ++ [err] }
  else some e

/-- Translation of one iteration of the fileWatcher loop body (the loop is
only running when the nested record type implements the FileWatcher
interface; otherwise the goroutine returned before its first iteration).
An event whose base name differs from the base name of the watched file is
skipped.  A create or write event acquires the loop mutex and reloads the
file; on a reload error OnError is invoked, the error is sent non-blocking
to the error channel, and the loop continues WITHOUT releasing the mutex
(the source has no unlock on this path), so the state stays locked; on
success the mutex is released and OnChange is invoked exactly when loadFile
reported a content change.  A watcher error invokes OnError and is sent
non-blocking to the error channel. -/
def fileWatcherStep (sys : Sys) (filePath : String) (unmarshal : UnmarshalFn)
    (s : LoopSt) : LoopInput → StepRes
  | .ctxDone => .ret
  | .eventsClosed => .ret
  | .errorsClosed => .ret
  | .watchErr m =>
      let werr := EnviErr.wrapped "error reloading watched file" (.fsnotify m)
      match chanSend s.envi werr with
      | none => .panicked "send on closed channel"
      | some e2 => .cont { s with envi := e2 } { onError := some werr }
  | .ev event =>
      if goBase event.name ≠ goBase filePath then .cont s {}
      else if event.create || event.write then
        if s.locked then .blocked s
        else
          let r := loadFile s.envi s.field filePath sys unmarshal
          match r.err with
          | some err =>
              let werr := EnviErr.wrapped "error reloading watched file" err
              match chanSend r.envi werr with
              | none => .panicked "send on closed channel"
              | some e2 => .cont ⟨e2, r.field, true⟩ { onError := some werr }
          | none => .cont ⟨r.envi, r.field, false⟩ { onChange := r.callOnChange }
      else .cont s {}

/-- Composite effect on one sub-field of applying its default tag and then
the keyed decode: a key present in the file takes the file value, a key
absent from the file keeps the parsed default. -/
def defaultThenFile (kvs : List (String × GoValue)) (g : SubField) : SubField :=
  match kvs.lookup g.name with
  | some v => { (applyDefault g).1 with value := v }
  | none => (applyDefault g).1

/-- Flat list of required-field violations in traversal order (sub-fields
of a nested record before the required check of the record field itself);
the panic-free characterization the validate loop is compared against. -/
def requiredViolations : List RootField → List EnviErr
  | [] => []
  | f :: fs =>
      (match f.val with
       | .direct (.strukt sub) => validateSubFields sub
       | _ => [])
        ++ (if f.requiredTag = "true" ∧ refIsZero f.val then [EnviErr.fieldRequired f.name]
            else [])
        ++ requiredViolations fs

/-- Decidable side condition for the validate walk: a struct-kind field
must be exported, because the recursive validate call would otherwise panic
in reflect.Value.Interface; fields of every other kind are unconstrained. -/
def structExported (f : RootField) : Bool :=
  match f.val with
  | .direct (.strukt _) => f.exported
  | _ => true

theorem applyDefault_name (f : SubField) : ((applyDefault f).1).name = f.name := by
  unfold applyDefault
  split
  · rfl
  · split <;> (try split) <;> rfl

theorem handleDefaults_snd_none (f : SubField) (fs : List SubField)
    (h : (handleDefaults (f :: fs)).2 = none) :
    (applyDefault f).2 = none ∧ (handleDefaults fs).2 = none := by
  rcases hf : applyDefault f with ⟨f2, e⟩
  cases e with
  | none => simpa [handleDefaults, hf] using h
  | some err => simp [handleDefaults, hf] at h

theorem handleDefaults_map (fs : List SubField)
    (h : (handleDefaults fs).2 = none) :
    (handleDefaults fs).1 = fs.map (fun f => (applyDefault f).1) := by
  induction fs with
  | nil => rfl
  | cons f fs ih =>
      rcases handleDefaults_snd_none f fs h with ⟨h1, h2⟩
      rcases hf : applyDefault f with ⟨f2, e⟩
      cases e with
      | none =>
          simp only [handleDefaults, hf, List.map_cons]
          exact congrArg (fun l => f2 :: l) (ih h2)
      | some err => simp [hf] at h1

theorem lookup_alistInsert {α : Type} (l : List (String × α)) (k : String) (v : α) :
    (alistInsert l k v).lookup k = some v := by
  induction l with
  | nil => simp [alistInsert, List.lookup]
  | cons pr rest ih =>
      rcases pr with ⟨k2, v2⟩
      by_cases hk : k2 = k
      · subst hk
        simp [alistInsert, List.lookup]
      · have hbeq : (k == k2) = false := beq_eq_false_iff_ne.mpr (fun h2 => hk h2.symm)
        simp [alistInsert, hk, List.lookup, hbeq, ih]

/-- Behavior of loadFile when the path has no cached hash and the file
holds keyed content: defaults are applied first, the new hash is cached,
and the keyed decode overwrites exactly the sub-fields whose keys are
present. -/
theorem loadFile_fresh (e : Envi) (field : List SubField) (path : String) (sys : Sys)
    (kvs : List (String × GoValue))
    (hH : (handleDefaults field).2 = none)
    (hfs : sys.fs path = some (.keyed kvs))
    (hhash : e.fileHashes.lookup path = none) :
    loadFile e field path sys unmarshalKeyed =
      ⟨true, field.map (defaultThenFile kvs),
       { e with fileHashes := alistInsert e.fileHashes path (.keyed kvs) }, none⟩ := by
  rcases hd : handleDefaults field with ⟨field2, err2⟩
  have herr : err2 = none := by rw [hd] at hH; exact hH
  subst herr
  have hf2 : field2 = field.map (fun f => (applyDefault f).1) := by
    have h2 := handleDefaults_map field hH
    rw [hd] at h2; exact h2
  have hne : ¬ e.fileHashes.lookup path = some (md5Hex (.keyed kvs)) := by
    rw [hhash]; simp
  simp only [loadFile, hd, hfs, if_neg hne, unmarshalKeyed]
  refine congrArg (fun l => LoadFileOut.mk true l _ none) ?_
  rw [hf2, List.map_map]
  apply List.map_congr_left
  intro f _
  simp only [Function.comp, defaultThenFile, applyDefault_name]

/-- Behavior of loadFile when the cached hash equals the hash of the
current content: defaults have been applied, but the unmarshal is skipped
and the cache is untouched. -/
theorem loadFile_nochange (e : Envi) (field : List SubField) (path : String) (sys : Sys)
    (um : UnmarshalFn) (blob : Content)
    (hH : (handleDefaults field).2 = none)
    (hfs : sys.fs path = some blob)
    (hhash : e.fileHashes.lookup path = some (md5Hex blob)) :
    loadFile e field path sys um = ⟨false, (handleDefaults field).1, e, none⟩ := by
  rcases hd : handleDefaults field with ⟨field2, err2⟩
  have herr : err2 = none := by rw [hd] at hH; exact hH
  subst herr
  simp only [loadFile, hd, hfs, if_pos hhash]

/-- Behavior of loadFile when the content differs from the cached hash and
the decoder succeeds: the new hash is cached and the decode applied. -/
theorem loadFile_changed (e : Envi) (field : List SubField) (path : String) (sys : Sys)
    (um : UnmarshalFn) (blob : Content) (f3 : List SubField)
    (hH : (handleDefaults field).2 = none)
    (hfs : sys.fs path = some blob)
    (hhash : ¬ e.fileHashes.lookup path = some (md5Hex blob))
    (hum : um blob ((handleDefaults field).1) = (f3, none)) :
    loadFile e field path sys um =
      ⟨true, f3, { e with fileHashes := alistInsert e.fileHashes path (md5Hex blob) }, none⟩ := by
  rcases hd : handleDefaults field with ⟨field2, err2⟩
  have herr : err2 = none := by rw [hd] at hH; exact hH
  subst herr
  have hum2 : um blob field2 = (f3, none) := by
    rw [hd] at hum; exact hum
  simp only [loadFile, hd, hfs, if_neg hhash, hum2]

/-- C1: for every file-backed nested-record field, Load applies the Default
Applier to the immediate scalar sub-fields of the nested record before
unmarshaling the file content into it: processing such a field yields the
sub-fields with defaults applied first and the keyed file content decoded
on top, so a key present in the file overwrites the default while a
sub-field whose key is absent from the file retains its parsed default
value (for a string sub-field with a non-empty default tag, exactly the tag
text). -/
theorem C1_defaults_before_unmarshal (sys : Sys) (e : Envi) (f : RootField)
    (sub : List SubField) (kvs : List (String × GoValue))
    (hexp : f.exported = true)
    (hval : f.val = .direct (.strukt sub))
    (htags : ¬(f.envTag = "" ∧ f.defaultTag = ""))
    (hum : unmarshalFor (cmpOr f.typeTag "yaml") = some unmarshalKeyed)
    (hwatch : f.watchTag ≠ "true")
    (hhash : e.fileHashes.lookup (goAbs sys.cwd (cmpOr (sys.env f.envTag) f.defaultTag)) = none)
    (hfs : sys.fs (goAbs sys.cwd (cmpOr (sys.env f.envTag) f.defaultTag)) = some (.keyed kvs))
    (hH : (handleDefaults sub).2 = none) :
    processField sys e f =
      .ok { f with val := .direct (.strukt (sub.map (defaultThenFile kvs))) }
        { e with fileHashes :=
            (alistInsert e.fileHashes (goAbs sys.cwd (cmpOr (sys.env f.envTag) f.defaultTag))
              (.keyed kvs)) } ∧
    (∀ g : SubField, g.kind = SubKind.str → g.defaultTag ≠ "" →
      kvs.lookup g.name = none → (defaultThenFile kvs g).value = GoValue.str g.defaultTag) := by
  constructor
  · simp only [processField, hexp, Bool.not_true, if_neg htags, hval, resolveValuePointer,
      hum, loadFile_fresh e sub (goAbs sys.cwd (cmpOr (sys.env f.envTag) f.defaultTag)) sys kvs
        hH hfs hhash,
      setResolved, if_neg hwatch]
    simp
  · intro g hk hd hnone
    simp [defaultThenFile, hnone, applyDefault, hd, hk]

/-- Witness for C1 at a concrete nested record with two defaulted string
sub-fields and a file providing only the first key. -/
theorem C1_defaults_before_unmarshal_witness :
    (handleDefaults [⟨"Key1", SubKind.str, "d1", "", GoValue.str ""⟩,
        ⟨"Key2", SubKind.str, "d2", "", GoValue.str ""⟩]).2 = none ∧
    processField
        ⟨fun _ => "", "/work",
          fun p => if p = "/work/cfg.yaml" then
              some (.keyed [("Key1", GoValue.str "filev")]) else none,
          fun _ => none, fun _ => none⟩
        New
        { name := "Cfg", defaultTag := "cfg.yaml",
          val := .direct (.strukt [⟨"Key1", SubKind.str, "d1", "", GoValue.str ""⟩,
            ⟨"Key2", SubKind.str, "d2", "", GoValue.str ""⟩]) } =
      .ok { name := "Cfg", defaultTag := "cfg.yaml",
            val := .direct (.strukt [⟨"Key1", SubKind.str, "d1", "", GoValue.str "filev"⟩,
              ⟨"Key2", SubKind.str, "d2", "", GoValue.str "d2"⟩]) }
        { New with fileHashes := [("/work/cfg.yaml", .keyed [("Key1", GoValue.str "filev")])] } ∧
    (defaultThenFile [("Key1", GoValue.str "filev")]
        ⟨"Key2", SubKind.str, "d2", "", GoValue.str ""⟩).value = GoValue.str "d2" := by
  refine ⟨by decide, ?_, ?_⟩
  · have h := (C1_defaults_before_unmarshal
      ⟨fun _ => "", "/work",
        fun p => if p = "/work/cfg.yaml" then
            some (.keyed [("Key1", GoValue.str "filev")]) else none,
        fun _ => none, fun _ => none⟩
      New
      { name := "Cfg", defaultTag := "cfg.yaml",
        val := .direct (.strukt [⟨"Key1", SubKind.str, "d1", "", GoValue.str ""⟩,
          ⟨"Key2", SubKind.str, "d2", "", GoValue.str ""⟩]) }
      [⟨"Key1", SubKind.str, "d1", "", GoValue.str ""⟩,
        ⟨"Key2", SubKind.str, "d2", "", GoValue.str ""⟩]
      [("Key1", GoValue.str "filev")]
      rfl rfl (by decide) rfl (by decide) (by decide) (by decide) (by decide)).1
    simpa using h
  · exact (C1_defaults_before_unmarshal
      ⟨fun _ => "", "/work",
        fun p => if p = "/work/cfg.yaml" then
            some (.keyed [("Key1", GoValue.str "filev")]) else none,
        fun _ => none, fun _ => none⟩
      New
      { name := "Cfg", defaultTag := "cfg.yaml",
        val := .direct (.strukt [⟨"Key1", SubKind.str, "d1", "", GoValue.str ""⟩,
          ⟨"Key2", SubKind.str, "d2", "", GoValue.str ""⟩]) }
      [⟨"Key1", SubKind.str, "d1", "", GoValue.str ""⟩,
        ⟨"Key2", SubKind.str, "d2", "", GoValue.str ""⟩]
      [("Key1", GoValue.str "filev")]
      rfl rfl (by decide) rfl (by decide) (by decide) (by decide) (by decide)).2
      ⟨"Key2", SubKind.str, "d2", "", GoValue.str ""⟩ rfl (by decide) (by decide)

/-- Behavior of loadFile when the file read fails: defaults have been
applied, the error names the path, and the state is untouched. -/
theorem loadFile_readErr (e : Envi) (field : List SubField) (path : String) (sys : Sys)
    (um : UnmarshalFn)
    (hH : (handleDefaults field).2 = none)
    (hfs : sys.fs path = none) :
    loadFile e field path sys um =
      ⟨false, (handleDefaults field).1, e,
       some (.wrapped "error while loading file" (.readFile path))⟩ := by
  rcases hd : handleDefaults field with ⟨field2, err2⟩
  have herr : err2 = none := by rw [hd] at hH; exact hH
  subst herr
  simp only [loadFile, hd, hfs]

/-- C2: for every field carrying both an env and a default tag, the value
used is the environment value when the named variable is set and non-empty
(os.Getenv returns the empty string for an unset variable), otherwise the
default tag value: for a plain string field this is the value assigned to
the field, and for a nested-record field it is the file path that is read,
witnessed here by the path named in the read error when the file is
missing; the environment always overrides the default and never the
reverse. -/
theorem C2_env_overrides_default (sys : Sys) (e : Envi)
    (fS fN : RootField) (s0 : String) (sub : List SubField)
    (hSexp : fS.exported = true) (hSval : fS.val = .direct (.str s0))
    (hSenv : fS.envTag ≠ "")
    (hNexp : fN.exported = true) (hNval : fN.val = .direct (.strukt sub))
    (hNenv : fN.envTag ≠ "")
    (hNum : unmarshalFor (cmpOr fN.typeTag "yaml") = some unmarshalKeyed)
    (hNH : (handleDefaults sub).2 = none)
    (hNfs : sys.fs (goAbs sys.cwd (cmpOr (sys.env fN.envTag) fN.defaultTag)) = none) :
    processField sys e fS =
      .ok { fS with val := .direct (.str (cmpOr (sys.env fS.envTag) fS.defaultTag)) } e ∧
    processField sys e fN =
      .err { fN with val := .direct (.strukt (handleDefaults sub).1) } e
        (.wrapped "error while loading file"
          (.readFile (goAbs sys.cwd (cmpOr (sys.env fN.envTag) fN.defaultTag)))) ∧
    (sys.env fS.envTag ≠ "" → cmpOr (sys.env fS.envTag) fS.defaultTag = sys.env fS.envTag) ∧
    (sys.env fS.envTag = "" → cmpOr (sys.env fS.envTag) fS.defaultTag = fS.defaultTag) ∧
    (sys.env fN.envTag ≠ "" → cmpOr (sys.env fN.envTag) fN.defaultTag = sys.env fN.envTag) ∧
    (sys.env fN.envTag = "" → cmpOr (sys.env fN.envTag) fN.defaultTag = fN.defaultTag) := by
  have hStags : ¬(fS.envTag = "" ∧ fS.defaultTag = "") := fun h => hSenv h.1
  have hNtags : ¬(fN.envTag = "" ∧ fN.defaultTag = "") := fun h => hNenv h.1
  refine ⟨?_, ?_, ?_, ?_, ?_, ?_⟩
  · simp only [processField, hSexp, Bool.not_true, if_neg hStags, hSval, resolveValuePointer,
      setResolved]
    simp
  · simp only [processField, hNexp, Bool.not_true, if_neg hNtags, hNval, resolveValuePointer,
      hNum,
      loadFile_readErr e sub (goAbs sys.cwd (cmpOr (sys.env fN.envTag) fN.defaultTag)) sys
        unmarshalKeyed hNH hNfs,
      setResolved]
    simp
  · intro h; simp [cmpOr, h]
  · intro h; simp [cmpOr, h]
  · intro h; simp [cmpOr, h]
  · intro h; simp [cmpOr, h]

/-- Witness for C2: one scalar field whose environment variable is set (the
environment value wins) and one nested field whose variable is unset (the
default path is read). -/
theorem C2_env_overrides_default_witness :
    (if "SERVICE_NAME" = "SERVICE_NAME" then "my-service" else "") ≠ "" ∧
    (if "CFG_FILE" = "SERVICE_NAME" then "my-service" else "") = "" ∧
    (processField
        ⟨fun k => if k = "SERVICE_NAME" then "my-service" else "", "/work",
          fun _ => none, fun _ => none, fun _ => none⟩ New
        { name := "ServiceName", defaultTag := "envi-test", envTag := "SERVICE_NAME",
          val := .direct (.str "") } =
      .ok { name := "ServiceName", defaultTag := "envi-test", envTag := "SERVICE_NAME",
            val := .direct (.str (cmpOr
              ((fun k => if k = "SERVICE_NAME" then "my-service" else "") "SERVICE_NAME")
              "envi-test")) } New) ∧
    cmpOr "my-service" "envi-test" = "my-service" ∧
    (processField
        ⟨fun k => if k = "SERVICE_NAME" then "my-service" else "", "/work",
          fun _ => none, fun _ => none, fun _ => none⟩ New
        { name := "Cfg", defaultTag := "cfg.yaml", envTag := "CFG_FILE",
          val := .direct (.strukt []) } =
      .err { name := "Cfg", defaultTag := "cfg.yaml", envTag := "CFG_FILE",
             val := .direct (.strukt []) } New
        (.wrapped "error while loading file" (.readFile "/work/cfg.yaml"))) ∧
    cmpOr "" "cfg.yaml" = "cfg.yaml" := by
  have h := C2_env_overrides_default
    ⟨fun k => if k = "SERVICE_NAME" then "my-service" else "", "/work",
      fun _ => none, fun _ => none, fun _ => none⟩ New
    { name := "ServiceName", defaultTag := "envi-test", envTag := "SERVICE_NAME",
      val := .direct (.str "") }
    { name := "Cfg", defaultTag := "cfg.yaml", envTag := "CFG_FILE",
      val := .direct (.strukt []) }
    "" [] rfl rfl (by decide) rfl rfl (by decide) rfl (by decide) (by decide)
  refine ⟨by decide, by decide, h.1, by decide, ?_, by decide⟩
  have h2 := h.2.1
  simpa using h2

/-- C3 counterexample: a create/write event whose file content hashes equal
to the cached hash does NOT leave the target record unchanged: the Default
Applier runs before the hash comparison, so a sub-field whose default value
had been overridden by the file is reset from the file value PAN back to
its default dflt, while the unmarshal and the OnChange callback are indeed
skipped. -/
theorem C3_counterexample :
    fileWatcherStep
        ⟨fun _ => "", "/work",
          fun p => if p = "/pg/mighty.yml" then
              some (.keyed [("PETER", GoValue.str "PAN")]) else none,
          fun _ => none, fun _ => none⟩
        "/pg/mighty.yml" unmarshalKeyed
        ⟨{ fileHashes := [("/pg/mighty.yml", .keyed [("PETER", GoValue.str "PAN")])] },
          [⟨"PETER", SubKind.str, "dflt", "", GoValue.str "PAN"⟩], false⟩
        (.ev { name := "/pg/mighty.yml", write := true }) =
      .cont
        ⟨{ fileHashes := [("/pg/mighty.yml", .keyed [("PETER", GoValue.str "PAN")])] },
          [⟨"PETER", SubKind.str, "dflt", "", GoValue.str "dflt"⟩], false⟩
        { onChange := false, onError := none } ∧
    GoValue.str "dflt" ≠ GoValue.str "PAN" := by
  exact ⟨by decide, by decide⟩

/-- C3 amended: an event whose content hash equals the cached hash skips
the unmarshal and the OnChange callback without error and leaves the hash
cache untouched, but the sub-fields have already had their defaults
re-applied (the record is unchanged only in what defaults do not touch);
an event with different content that unmarshals cleanly triggers OnChange,
updates the cache, and thereby suppresses the callback for the next event
with the same content: OnChange fires exactly once per distinct content. -/
theorem C3_amended (sys : Sys) (path : String) (um : UnmarshalFn) (s : LoopSt)
    (blob : Content) (ev : FsEvent)
    (hlock : s.locked = false)
    (hbase : goBase ev.name = goBase path)
    (hwrite : ev.write = true)
    (hH : (handleDefaults s.field).2 = none)
    (hfs : sys.fs path = some blob) :
    (s.envi.fileHashes.lookup path = some (md5Hex blob) →
      fileWatcherStep sys path um s (.ev ev) =
        .cont ⟨s.envi, (handleDefaults s.field).1, false⟩
          { onChange := false, onError := none }) ∧
    (∀ f3 : List SubField,
      s.envi.fileHashes.lookup path ≠ some (md5Hex blob) →
      um blob ((handleDefaults s.field).1) = (f3, none) →
      fileWatcherStep sys path um s (.ev ev) =
        .cont ⟨{ s.envi with fileHashes := alistInsert s.envi.fileHashes path (md5Hex blob) },
            f3, false⟩ { onChange := true, onError := none } ∧
      ({ s.envi with fileHashes := alistInsert s.envi.fileHashes path (md5Hex blob)
          } : Envi).fileHashes.lookup path = some (md5Hex blob)) := by
  have hb : ¬ goBase ev.name ≠ goBase path := fun h => h hbase
  have hor : (ev.create || ev.write) = true := by simp [hwrite]
  constructor
  · intro hhash
    simp only [fileWatcherStep, if_neg hb, hor, if_pos rfl, hlock,
      loadFile_nochange s.envi s.field path sys um blob hH hfs hhash]
    simp
  · intro f3 hhash hum
    constructor
    · simp only [fileWatcherStep, if_neg hb, hor, if_pos rfl, hlock,
        loadFile_changed s.envi s.field path sys um blob f3 hH hfs hhash hum]
      simp
    · exact lookup_alistInsert s.envi.fileHashes path (md5Hex blob)

/-- Witness for C3 amended: the suppressed event of the counterexample
scenario and a changed-content event on a fresh cache. -/
theorem C3_amended_witness :
    ((({ fileHashes := [("/pg/mighty.yml", .keyed [("PETER", GoValue.str "PAN")])] }
        : Envi).fileHashes.lookup "/pg/mighty.yml")
      = some (md5Hex (.keyed [("PETER", GoValue.str "PAN")]))) ∧
    fileWatcherStep
        ⟨fun _ => "", "/work",
          fun p => if p = "/pg/mighty.yml" then
              some (.keyed [("PETER", GoValue.str "PAN")]) else none,
          fun _ => none, fun _ => none⟩
        "/pg/mighty.yml" unmarshalKeyed
        ⟨{ fileHashes := [("/pg/mighty.yml", .keyed [("PETER", GoValue.str "PAN")])] },
          [⟨"PETER", SubKind.str, "dflt", "", GoValue.str "PAN"⟩], false⟩
        (.ev { name := "/pg/mighty.yml", write := true }) =
      .cont
        ⟨{ fileHashes := [("/pg/mighty.yml", .keyed [("PETER", GoValue.str "PAN")])] },
          (handleDefaults [⟨"PETER", SubKind.str, "dflt", "", GoValue.str "PAN"⟩]).1, false⟩
        { onChange := false, onError := none } ∧
    (fileWatcherStep
        ⟨fun _ => "", "/work",
          fun p => if p = "/pg/mighty.yml" then
              some (.keyed [("PETER", GoValue.str "PAN")]) else none,
          fun _ => none, fun _ => none⟩
        "/pg/mighty.yml" unmarshalKeyed
        ⟨{ fileHashes := [] },
          [⟨"PETER", SubKind.str, "dflt", "", GoValue.str ""⟩], false⟩
        (.ev { name := "/pg/mighty.yml", write := true }) =
      .cont
        ⟨{ fileHashes := alistInsert [] "/pg/mighty.yml"
              (md5Hex (.keyed [("PETER", GoValue.str "PAN")])) },
          [⟨"PETER", SubKind.str, "dflt", "", GoValue.str "PAN"⟩], false⟩
        { onChange := true, onError := none } ∧
      (({ fileHashes := alistInsert [] "/pg/mighty.yml"
            (md5Hex (.keyed [("PETER", GoValue.str "PAN")])) } : Envi).fileHashes.lookup
          "/pg/mighty.yml" = some (md5Hex (.keyed [("PETER", GoValue.str "PAN")])))) := by
  refine ⟨by decide, ?_, ?_⟩
  · exact (C3_amended
      ⟨fun _ => "", "/work",
        fun p => if p = "/pg/mighty.yml" then
            some (.keyed [("PETER", GoValue.str "PAN")]) else none,
        fun _ => none, fun _ => none⟩
      "/pg/mighty.yml" unmarshalKeyed
      ⟨{ fileHashes := [("/pg/mighty.yml", .keyed [("PETER", GoValue.str "PAN")])] },
        [⟨"PETER", SubKind.str, "dflt", "", GoValue.str "PAN"⟩], false⟩
      (.keyed [("PETER", GoValue.str "PAN")])
      { name := "/pg/mighty.yml", write := true }
      rfl (by decide) rfl (by decide) (by decide)).1 (by decide)
  · exact (C3_amended
      ⟨fun _ => "", "/work",
        fun p => if p = "/pg/mighty.yml" then
            some (.keyed [("PETER", GoValue.str "PAN")]) else none,
        fun _ => none, fun _ => none⟩
      "/pg/mighty.yml" unmarshalKeyed
      ⟨{ fileHashes := [] },
        [⟨"PETER", SubKind.str, "dflt", "", GoValue.str ""⟩], false⟩
      (.keyed [("PETER", GoValue.str "PAN")])
      { name := "/pg/mighty.yml", write := true }
      rfl (by decide) rfl (by decide) (by decide)).2
      [⟨"PETER", SubKind.str, "dflt", "", GoValue.str "PAN"⟩] (by decide) (by decide)

/-- Behavior of loadFile when the content differs from the cached hash and
the decoder fails: the new hash has already been stored when the unmarshal
error is returned. -/
theorem loadFile_umErr (e : Envi) (field : List SubField) (path : String) (sys : Sys)
    (um : UnmarshalFn) (blob : Content) (f3 : List SubField) (err : EnviErr)
    (hH : (handleDefaults field).2 = none)
    (hfs : sys.fs path = some blob)
    (hhash : ¬ e.fileHashes.lookup path = some (md5Hex blob))
    (hum : um blob ((handleDefaults field).1) = (f3, some err)) :
    loadFile e field path sys um =
      ⟨false, f3, { e with fileHashes := alistInsert e.fileHashes path (md5Hex blob) },
       some (.wrapped "error while loading file" err)⟩ := by
  rcases hd : handleDefaults field with ⟨field2, err2⟩
  have herr : err2 = none := by rw [hd] at hH; exact hH
  subst herr
  have hum2 : um blob field2 = (f3, some err) := by
    rw [hd] at hum; exact hum
  simp only [loadFile, hd, hfs, if_neg hhash, hum2]

/-- C4 counterexample: a failed unmarshal does not leave the cached hash
unchanged.  The path has cached hash raw old; the file now holds raw new;
text decoding fails because the record has no string sub-field, yet the
cache already maps the path to the hash of the new content. -/
theorem C4_counterexample :
    loadFile { fileHashes := [("/tmp/t.txt", .raw "old")] }
        [⟨"N", SubKind.i64, "", "", GoValue.int 0⟩] "/tmp/t.txt"
        ⟨fun _ => "", "/work",
          fun p => if p = "/tmp/t.txt" then some (.raw "new") else none,
          fun _ => none, fun _ => none⟩
        unmarshalText =
      ⟨false, [⟨"N", SubKind.i64, "", "", GoValue.int 0⟩],
        { fileHashes := [("/tmp/t.txt", .raw "new")] },
        some (.wrapped "error while loading file"
          (.decode "failed to find target value for text file"))⟩ ∧
    (Content.raw "new") ≠ (Content.raw "old") := by
  exact ⟨by decide, by decide⟩

/-- C4 amended: the hash entry for a path is written as soon as the newly
read content differs from the cached hash, BEFORE the unmarshal is
attempted, so a failed unmarshal leaves the new content hash in the cache;
only the equal-hash path (which skips the unmarshal entirely) leaves the
cache unchanged. -/
theorem C4_amended (e : Envi) (field : List SubField) (path : String) (sys : Sys)
    (um : UnmarshalFn) (blob : Content)
    (hH : (handleDefaults field).2 = none)
    (hfs : sys.fs path = some blob) :
    (e.fileHashes.lookup path = some (md5Hex blob) →
      (loadFile e field path sys um).envi = e ∧
      (loadFile e field path sys um).err = none) ∧
    (e.fileHashes.lookup path ≠ some (md5Hex blob) →
      ((loadFile e field path sys um).envi).fileHashes =
        alistInsert e.fileHashes path (md5Hex blob)) := by
  constructor
  · intro hhash
    rw [loadFile_nochange e field path sys um blob hH hfs hhash]
    exact ⟨rfl, rfl⟩
  · intro hhash
    rcases hum : um blob ((handleDefaults field).1) with ⟨f3, oe⟩
    cases oe with
    | none =>
        rw [loadFile_changed e field path sys um blob f3 hH hfs hhash hum]
    | some err =>
        rw [loadFile_umErr e field path sys um blob f3 err hH hfs hhash hum]

/-- Witness for C4 amended: the counterexample scenario (differing hash,
failing decoder) and the matching-hash scenario on the same path. -/
theorem C4_amended_witness :
    (({ fileHashes := [("/tmp/t.txt", .raw "old")] } : Envi).fileHashes.lookup "/tmp/t.txt"
        ≠ some (md5Hex (.raw "new"))) ∧
    ((loadFile { fileHashes := [("/tmp/t.txt", .raw "old")] }
        [⟨"N", SubKind.i64, "", "", GoValue.int 0⟩] "/tmp/t.txt"
        ⟨fun _ => "", "/work",
          fun p => if p = "/tmp/t.txt" then some (.raw "new") else none,
          fun _ => none, fun _ => none⟩
        unmarshalText).envi).fileHashes =
      alistInsert [("/tmp/t.txt", .raw "old")] "/tmp/t.txt" (md5Hex (.raw "new")) ∧
    ((loadFile { fileHashes := [("/tmp/t.txt", .raw "old")] }
        [⟨"N", SubKind.i64, "", "", GoValue.int 0⟩] "/tmp/t.txt"
        ⟨fun _ => "", "/work",
          fun p => if p = "/tmp/t.txt" then some (.raw "old") else none,
          fun _ => none, fun _ => none⟩
        unmarshalText).envi = { fileHashes := [("/tmp/t.txt", .raw "old")] } ∧
      (loadFile { fileHashes := [("/tmp/t.txt", .raw "old")] }
        [⟨"N", SubKind.i64, "", "", GoValue.int 0⟩] "/tmp/t.txt"
        ⟨fun _ => "", "/work",
          fun p => if p = "/tmp/t.txt" then some (.raw "old") else none,
          fun _ => none, fun _ => none⟩
        unmarshalText).err = none) := by
  refine ⟨by decide, ?_, ?_⟩
  · exact (C4_amended { fileHashes := [("/tmp/t.txt", .raw "old")] }
      [⟨"N", SubKind.i64, "", "", GoValue.int 0⟩] "/tmp/t.txt"
      ⟨fun _ => "", "/work",
        fun p => if p = "/tmp/t.txt" then some (.raw "new") else none,
        fun _ => none, fun _ => none⟩
      unmarshalText (.raw "new") (by decide) (by decide)).2 (by decide)
  · exact (C4_amended { fileHashes := [("/tmp/t.txt", .raw "old")] }
      [⟨"N", SubKind.i64, "", "", GoValue.int 0⟩] "/tmp/t.txt"
      ⟨fun _ => "", "/work",
        fun p => if p = "/tmp/t.txt" then some (.raw "old") else none,
        fun _ => none, fun _ => none⟩
      unmarshalText (.raw "old") (by decide) (by decide)).1 (by decide)

/-- The validate walk returns exactly the flat required-violation list when
every struct-kind field is exported (no Interface panic is reached). -/
theorem validateFields_ok (cfg : List RootField)
    (hexp : ∀ f ∈ cfg, structExported f = true) :
    validateFields cfg = .ok (requiredViolations cfg) := by
  induction cfg with
  | nil => rfl
  | cons f fs ih =>
      have hrest := ih (fun g hg => hexp g (List.mem_cons_of_mem f hg))
      have hf := hexp f (List.mem_cons_self f fs)
      rcases hv : f.val with v | _ | r
      · cases v with
        | str s => simp [validateFields, requiredViolations, hv, hrest]
        | strukt sub =>
            have he : f.exported = true := by
              simpa [structExported, hv] using hf
            simp only [validateFields, requiredViolations, hv, he, Bool.not_true,
              Bool.false_eq_true, if_false, hrest]
        | other a b c => simp [validateFields, requiredViolations, hv, hrest]
      · simp [validateFields, requiredViolations, hv, hrest]
      · simp [validateFields, requiredViolations, hv, hrest]

/-- C5 counterexample: a record whose traversal succeeds structurally but
which contains an unexported struct-kind field makes Load panic inside
validate (reflect.Value.Interface refuses unexported fields), although the
record has no required-field violation at all, so Load neither returns nil
nor a ValidationError. -/
theorem C5_counterexample :
    Load ⟨fun _ => "", "/work", fun _ => none, fun _ => none, fun _ => none⟩ New
        (.ptrTo (.strukt [{ name := "hidden", exported := false, envTag := "X", val := .direct (.strukt []) }])) =
      .panicked
        "reflect.Value.Interface: cannot return value obtained from unexported field or method" ∧
    loadConfig ⟨fun _ => "", "/work", fun _ => none, fun _ => none, fun _ => none⟩ New
        (.ptrTo (.strukt [{ name := "hidden", exported := false, envTag := "X", val := .direct (.strukt []) }])) =
      .ok [{ name := "hidden", exported := false, envTag := "X", val := .direct (.strukt []) }] New ∧
    requiredViolations [{ name := "hidden", exported := false, envTag := "X", val := .direct (.strukt []) }] = [] := by
  exact ⟨by decide, by decide, by decide⟩

/-- C5 amended: for every record whose traversal succeeds structurally and
whose struct-kind fields are all exported, Load collects one
FieldRequiredError per required-tagged field at its zero value, across the
root record and the nested records, flattened into one ValidationError; in
that setting Load succeeds if and only if no such violation exists.  (With
an unexported struct-kind field, Load panics in validate instead.) -/
theorem C5_required_aggregation (sys : Sys) (e : Envi) (config : GoRoot)
    (cfg : List RootField) (e2 : Envi)
    (hload : loadConfig sys e config = .ok cfg e2)
    (hexp : ∀ f ∈ cfg, structExported f = true) :
    validateFields cfg = .ok (requiredViolations cfg) ∧
    (Load sys e config = .ok cfg e2 ↔ requiredViolations cfg = []) ∧
    (requiredViolations cfg ≠ [] →
      Load sys e config = .errValidation cfg e2 (requiredViolations cfg)) := by
  have hv := validateFields_ok cfg hexp
  refine ⟨hv, ?_, ?_⟩
  · by_cases hemp : requiredViolations cfg = []
    · simp [Load, hload, hv, hemp]
    · simp only [Load, hload, hv]
      rw [if_neg (by simpa [List.isEmpty_iff] using hemp)]
      simp [hemp]
  · intro hemp
    simp only [Load, hload, hv]
    rw [if_neg (by simpa [List.isEmpty_iff] using hemp)]

/-- Witness for C5 amended: a single required string field left at its zero
value; Load returns the aggregate naming exactly that field. -/
theorem C5_required_aggregation_witness :
    loadConfig ⟨fun _ => "", "/work", fun _ => none, fun _ => none, fun _ => none⟩ New
        (.ptrTo (.strukt [{ name := "Environment", envTag := "ENVIRONMENT", requiredTag := "true", val := .direct (.str "") }])) =
      .ok [{ name := "Environment", envTag := "ENVIRONMENT", requiredTag := "true", val := .direct (.str "") }] New ∧
    requiredViolations [{ name := "Environment", envTag := "ENVIRONMENT", requiredTag := "true", val := .direct (.str "") }] =
      [EnviErr.fieldRequired "Environment"] ∧
    Load ⟨fun _ => "", "/work", fun _ => none, fun _ => none, fun _ => none⟩ New
        (.ptrTo (.strukt [{ name := "Environment", envTag := "ENVIRONMENT", requiredTag := "true", val := .direct (.str "") }])) =
      .errValidation
        [{ name := "Environment", envTag := "ENVIRONMENT", requiredTag := "true", val := .direct (.str "") }] New
        (requiredViolations [{ name := "Environment", envTag := "ENVIRONMENT", requiredTag := "true", val := .direct (.str "") }]) := by
  refine ⟨by decide, by decide, ?_⟩
  exact (C5_required_aggregation
    ⟨fun _ => "", "/work", fun _ => none, fun _ => none, fun _ => none⟩ New
    (.ptrTo (.strukt [{ name := "Environment", envTag := "ENVIRONMENT", requiredTag := "true", val := .direct (.str "") }]))
    [{ name := "Environment", envTag := "ENVIRONMENT", requiredTag := "true", val := .direct (.str "") }] New
    (by decide) (by decide)).2.2 (by decide)

/-- C6: the reload loop does not survive a failed reload as the spec
requires.  On the error path the loop does continue and reports the error
through OnError (first conjuncts), but the goroutine-local mutex acquired
before loadFile is never released on that path, so the very next
create/write event blocks forever in mutex.Lock: the loop can receive the
event but never performs the next reload attempt. -/
theorem C6_failed_reload_then_deadlock :
    fileWatcherStep ⟨fun _ => "", "/work", fun _ => none, fun _ => none, fun _ => none⟩
        "/tmp/w.yaml" unmarshalKeyed
        ⟨{}, [⟨"Key1", SubKind.str, "", "", GoValue.str ""⟩], false⟩
        (.ev { name := "/tmp/w.yaml", write := true }) =
      .cont
        ⟨{ errorChan := [.wrapped "error reloading watched file"
            (.wrapped "error while loading file" (.readFile "/tmp/w.yaml"))] },
          [⟨"Key1", SubKind.str, "", "", GoValue.str ""⟩], true⟩
        { onChange := false,
          onError := some (.wrapped "error reloading watched file"
            (.wrapped "error while loading file" (.readFile "/tmp/w.yaml"))) } ∧
    fileWatcherStep ⟨fun _ => "", "/work", fun _ => none, fun _ => none, fun _ => none⟩
        "/tmp/w.yaml" unmarshalKeyed
        ⟨{ errorChan := [.wrapped "error reloading watched file"
            (.wrapped "error while loading file" (.readFile "/tmp/w.yaml"))] },
          [⟨"Key1", SubKind.str, "", "", GoValue.str ""⟩], true⟩
        (.ev { name := "/tmp/w.yaml", write := true }) =
      .blocked
        ⟨{ errorChan := [.wrapped "error reloading watched file"
            (.wrapped "error while loading file" (.readFile "/tmp/w.yaml"))] },
          [⟨"Key1", SubKind.str, "", "", GoValue.str ""⟩], true⟩ := by
  exact ⟨by decide, by decide⟩

/-- C7 counterexample: the first Close on a fresh instance (no watches ever
registered) succeeds, but the second Close panics: it closes the already
closed error channel before touching any watcher. -/
theorem C7_counterexample :
    (Close New).1 = CloseRes.ok ∧
    (Close (Close New).2).1 = CloseRes.panicked "close of closed channel" := by
  exact ⟨by decide, by decide⟩

/-- C7 amended: a first Close returns no error when every registered handle
closes cleanly (in particular on an instance with no watches), attempts to
close every handle regardless of earlier failures and aggregates all the
failures into one CloseError; calling Close a second time on the same
instance, however, panics on the already-closed error channel. -/
theorem C7_close_semantics (e : Envi) (h : e.errorChanClosed = false) :
    ((∀ pr ∈ e.fileWatchers, pr.2.closeErr = none) → (Close e).1 = CloseRes.ok) ∧
    ((¬ ∀ pr ∈ e.fileWatchers, pr.2.closeErr = none) →
      (Close e).1 = CloseRes.closeError (e.fileWatchers.filterMap (fun pr =>
        pr.2.closeErr.map (fun m =>
          "failed to close watcher for file " ++ pr.1 ++ " with error: " ++ m)))) ∧
    (Close (Close e).2).1 = CloseRes.panicked "close of closed channel" := by
  refine ⟨?_, ?_, ?_⟩
  · intro hall
    have hnil : e.fileWatchers.filterMap (fun pr =>
        pr.2.closeErr.map (fun m =>
          "failed to close watcher for file " ++ pr.1 ++ " with error: " ++ m)) = [] := by
      rw [List.filterMap_eq_nil_iff]
      intro pr hpr
      rw [hall pr hpr]
      rfl
    simp [Close, h, hnil]
  · intro hsome
    have hne : e.fileWatchers.filterMap (fun pr =>
        pr.2.closeErr.map (fun m =>
          "failed to close watcher for file " ++ pr.1 ++ " with error: " ++ m)) ≠ [] := by
      intro hnil
      apply hsome
      intro pr hpr
      have := (List.filterMap_eq_nil_iff.mp hnil) pr hpr
      rcases hc : pr.2.closeErr with _ | m
      · rfl
      · rw [hc] at this
        simp at this
    simp only [Close, h, Bool.false_eq_true, if_false]
    rw [if_neg (by simpa [List.isEmpty_iff] using hne)]
  · have h2 : (Close e).2.errorChanClosed = true := by
      simp only [Close, h, Bool.false_eq_true, if_false]
      split
      · rfl
      · rfl
    have hstep : ∀ e3 : Envi, e3.errorChanClosed = true →
        (Close e3).1 = CloseRes.panicked "close of closed channel" := by
      intro e3 h3
      simp [Close, h3]
    exact hstep (Close e).2 h2

/-- Witness for C7 amended: an instance with two failing handles and one
clean handle aggregates exactly the two failure messages, and a repeated
Close panics. -/
theorem C7_close_semantics_witness :
    (({ fileWatchers := [("/a", ⟨some "boom1"⟩), ("/b", ⟨none⟩), ("/c", ⟨some "boom2"⟩)] }
        : Envi).errorChanClosed = false) ∧
    (Close { fileWatchers := [("/a", ⟨some "boom1"⟩), ("/b", ⟨none⟩),
        ("/c", ⟨some "boom2"⟩)] }).1 =
      CloseRes.closeError
        ["failed to close watcher for file /a with error: boom1",
         "failed to close watcher for file /c with error: boom2"] ∧
    (Close (Close { fileWatchers := [("/a", ⟨some "boom1"⟩), ("/b", ⟨none⟩),
        ("/c", ⟨some "boom2"⟩)] }).2).1 =
      CloseRes.panicked "close of closed channel" := by
  refine ⟨by decide, ?_, ?_⟩
  · have h := (C7_close_semantics
      { fileWatchers := [("/a", ⟨some "boom1"⟩), ("/b", ⟨none⟩), ("/c", ⟨some "boom2"⟩)] }
      (by decide)).2.1 (by decide)
    simpa using h
  · exact (C7_close_semantics
      { fileWatchers := [("/a", ⟨some "boom1"⟩), ("/b", ⟨none⟩), ("/c", ⟨some "boom2"⟩)] }
      (by decide)).2.2

/-- C8: watched fields are registered per parent directory: the first
watchFile call for a directory creates exactly one Watch Entry under the
directory key, a second watchFile call for a file in the same directory
creates no new entry and reuses it, while each call starts its own reload
loop; and a reload loop ignores every event whose file name does not match
its own file, so modifying one file triggers only that field's loop. -/
theorem C8_shared_directory_watch (sys : Sys) (e : Envi) (p q : String)
    (um : UnmarshalFn) (s : LoopSt) (ev : FsEvent)
    (hdir : goDir q = goDir p)
    (h0 : e.fileWatchers.lookup (goDir p) = none)
    (hadd : sys.addErr (goDir p) = none)
    (hev : goBase ev.name ≠ goBase q) :
    watchFile sys e p =
      ({ e with fileWatchers := alistInsert e.fileWatchers (goDir p) ⟨sys.closeErr (goDir p)⟩,
                launchedLoops := e.launchedLoops ++ [p] }, none) ∧
    watchFile sys (watchFile sys e p).1 q =
      ({ e with fileWatchers := alistInsert e.fileWatchers (goDir p) ⟨sys.closeErr (goDir p)⟩,
                launchedLoops := e.launchedLoops ++ [p] ++ [q] }, none) ∧
    fileWatcherStep sys q um s (.ev ev) = .cont s { onChange := false, onError := none } := by
  have h1 : watchFile sys e p =
      ({ e with fileWatchers := alistInsert e.fileWatchers (goDir p) ⟨sys.closeErr (goDir p)⟩,
                launchedLoops := e.launchedLoops ++ [p] }, none) := by
    simp only [watchFile, h0, hadd]
  refine ⟨h1, ?_, ?_⟩
  · rw [h1]
    have h2 : ({ e with
        fileWatchers := alistInsert e.fileWatchers (goDir p) ⟨sys.closeErr (goDir p)⟩,
        launchedLoops := e.launchedLoops ++ [p] } : Envi).fileWatchers.lookup (goDir q) =
        some ⟨sys.closeErr (goDir p)⟩ := by
      simp only [hdir]
      exact lookup_alistInsert e.fileWatchers (goDir p) ⟨sys.closeErr (goDir p)⟩
    simp only [watchFile, h2]
  · simp only [fileWatcherStep, if_pos hev]

/-- Witness for C8: two files a.json and b.yaml in the directory tmp share
one Watch Entry, and an event on a.json is ignored by the loop watching
b.yaml. -/
theorem C8_shared_directory_watch_witness :
    goDir "/tmp/b.yaml" = goDir "/tmp/a.json" ∧
    (New : Envi).fileWatchers.lookup (goDir "/tmp/a.json") = none ∧
    goBase "/tmp/a.json" ≠ goBase "/tmp/b.yaml" ∧
    watchFile ⟨fun _ => "", "/work", fun _ => none, fun _ => none, fun _ => none⟩ New
        "/tmp/a.json" =
      ({ New with fileWatchers := alistInsert New.fileWatchers (goDir "/tmp/a.json") ⟨none⟩,
                  launchedLoops := New.launchedLoops ++ ["/tmp/a.json"] }, none) ∧
    watchFile ⟨fun _ => "", "/work", fun _ => none, fun _ => none, fun _ => none⟩
        (watchFile ⟨fun _ => "", "/work", fun _ => none, fun _ => none, fun _ => none⟩ New
          "/tmp/a.json").1 "/tmp/b.yaml" =
      ({ New with fileWatchers := alistInsert New.fileWatchers (goDir "/tmp/a.json") ⟨none⟩,
                  launchedLoops := New.launchedLoops ++ ["/tmp/a.json"] ++ ["/tmp/b.yaml"] }, none) ∧
    fileWatcherStep ⟨fun _ => "", "/work", fun _ => none, fun _ => none, fun _ => none⟩
        "/tmp/b.yaml" unmarshalKeyed ⟨New, [], false⟩
        (.ev { name := "/tmp/a.json", write := true }) =
      .cont ⟨New, [], false⟩ { onChange := false, onError := none } := by
  have h := C8_shared_directory_watch
    ⟨fun _ => "", "/work", fun _ => none, fun _ => none, fun _ => none⟩ New
    "/tmp/a.json" "/tmp/b.yaml" unmarshalKeyed ⟨New, [], false⟩
    { name := "/tmp/a.json", write := true }
    (by decide) (by decide) rfl (by decide)
  exact ⟨by decide, by decide, by decide, h.1, h.2.1, h.2.2⟩

/-- Characterization of setFirstString when no sub-field has string kind. -/
theorem setFirstString_none (fs : List SubField) (v : String)
    (h : ∀ f ∈ fs, f.kind ≠ SubKind.str) :
    setFirstString fs v = (fs, false) := by
  induction fs with
  | nil => rfl
  | cons f fs ih =>
      have hf : f.kind ≠ SubKind.str := h f (List.mem_cons_self f fs)
      simp only [setFirstString, if_neg hf,
        ih (fun g hg => h g (List.mem_cons_of_mem f hg))]

/-- Characterization of setFirstString at the first string-kind index: only
that sub-field is modified. -/
theorem setFirstString_first (fs : List SubField) (v : String) (i : Nat)
    (hi : i < fs.length)
    (hstr : (fs.get ⟨i, hi⟩).kind = SubKind.str)
    (hfirst : ∀ j (hj : j < fs.length), j < i → (fs.get ⟨j, hj⟩).kind ≠ SubKind.str) :
    setFirstString fs v = (fs.set i { fs.get ⟨i, hi⟩ with value := GoValue.str v }, true) := by
  induction fs generalizing i with
  | nil => exact absurd hi (by simp)
  | cons f fs ih =>
      cases i with
      | zero =>
          have hf : f.kind = SubKind.str := hstr
          simp only [setFirstString, if_pos hf, List.set]
          rfl
      | succ k =>
          have hf : f.kind ≠ SubKind.str := by
            have h0 : (0 : Nat) < (f :: fs).length := by simp
            exact hfirst 0 h0 (Nat.succ_pos k)
          have hk : k < fs.length := Nat.lt_of_succ_lt_succ hi
          have hstr2 : (fs.get ⟨k, hk⟩).kind = SubKind.str := hstr
          have hfirst2 : ∀ j (hj : j < fs.length), j < k →
              (fs.get ⟨j, hj⟩).kind ≠ SubKind.str := by
            intro j hj hjk
            have hj2 : j + 1 < (f :: fs).length := by simpa using Nat.succ_lt_succ hj
            exact hfirst (j + 1) hj2 (Nat.succ_lt_succ hjk)
          simp only [setFirstString, if_neg hf, ih k hk hstr2 hfirst2, List.set]
          rfl

/-- C9 counterexample: text decoding does not merely trim the trailing
newline: strings.Trim with a newline cutset removes the leading newline as
well, so the content followed by newline, foo, newline is stored as foo and
not as the trailing-trimmed value. -/
theorem C9_counterexample :
    unmarshalText (.raw "\nfoo\n") [⟨"V", SubKind.str, "", "", GoValue.str ""⟩] =
      ([⟨"V", SubKind.str, "", "", GoValue.str "foo"⟩], none) ∧
    "foo" ≠ "\nfoo" := by
  exact ⟨by decide, by decide⟩

/-- C9 amended: text decoding trims every leading AND trailing newline
character from the file content, assigns the result to the first
string-kind sub-field of the nested record leaving every other sub-field
untouched, and fails with an error when the record has no string-kind
sub-field. -/
theorem C9_text_decode (s : String) (fs : List SubField) (i : Nat)
    (hi : i < fs.length)
    (hstr : (fs.get ⟨i, hi⟩).kind = SubKind.str)
    (hfirst : ∀ j (hj : j < fs.length), j < i → (fs.get ⟨j, hj⟩).kind ≠ SubKind.str) :
    unmarshalText (.raw s) fs =
      (fs.set i { fs.get ⟨i, hi⟩ with value := GoValue.str (goTrim s '\n') }, none) ∧
    (∀ gs : List SubField, (∀ g ∈ gs, g.kind ≠ SubKind.str) →
      unmarshalText (.raw s) gs =
        (gs, some (.decode "failed to find target value for text file"))) := by
  constructor
  · simp only [unmarshalText, setFirstString_first fs (goTrim s '\n') i hi hstr hfirst]
    rfl
  · intro gs hgs
    simp only [unmarshalText, setFirstString_none gs (goTrim s '\n') hgs]
    rfl

/-- Witness for C9 amended: a record whose first string-kind sub-field sits
behind an integer sub-field receives the trimmed text while the integer
field is untouched; a record with no string sub-field fails. -/
theorem C9_text_decode_witness :
    unmarshalText (.raw "x\n")
        [⟨"N", SubKind.i64, "", "", GoValue.int 7⟩,
          ⟨"V", SubKind.str, "", "", GoValue.str ""⟩] =
      ([⟨"N", SubKind.i64, "", "", GoValue.int 7⟩,
          ⟨"V", SubKind.str, "", "", GoValue.str "x"⟩], none) ∧
    unmarshalText (.raw "x\n") [⟨"N", SubKind.i64, "", "", GoValue.int 7⟩] =
      ([⟨"N", SubKind.i64, "", "", GoValue.int 7⟩],
        some (.decode "failed to find target value for text file")) := by
  have h := C9_text_decode "x\n"
    [⟨"N", SubKind.i64, "", "", GoValue.int 7⟩, ⟨"V", SubKind.str, "", "", GoValue.str ""⟩]
    1 (by decide) rfl
    (fun j hj hj1 => by
      have hj0 : j = 0 := by omega
      subst hj0
      exact fun hEq => SubKind.noConfusion hEq)
  exact ⟨h.1.trans (by decide),
    h.2 [⟨"N", SubKind.i64, "", "", GoValue.int 7⟩]
      (fun g hg => by
        have hg2 : g = ⟨"N", SubKind.i64, "", "", GoValue.int 7⟩ := by
          simpa using hg
        subst hg2
        exact fun hEq => SubKind.noConfusion hEq)⟩

/-- C10 counterexample: a nil pointer field is not allocated and not
populated: pointer resolution yields the invalid zero Value and loadConfig
panics while building the InvalidKindError for it (reflect.Value.Type on
the zero Value), rather than loading the field without error or panic. -/
theorem C10_counterexample :
    processField ⟨fun _ => "", "/work", fun _ => none, fun _ => none, fun _ => none⟩ New
        { name := "P", envTag := "MY_ENV", val := GoFieldRef.nilPtr } =
      .panicked "reflect: call of reflect.Value.Type on zero Value" := by
  decide

/-- C10 amended: a non-nil pointer field is dereferenced (through every
level of indirection, not just one) and populated exactly like a
non-pointer field, the write landing through the pointer; a nil pointer is
never allocated: resolution returns the invalid zero Value and processing
the field panics when the field carries an env or default tag. -/
theorem C10_pointer_resolution (sys : Sys) (e : Envi) (f1 f2 f3 : RootField) (s0 : String)
    (h1exp : f1.exported = true)
    (h1tags : ¬(f1.envTag = "" ∧ f1.defaultTag = ""))
    (h1val : f1.val = .ptrTo (.direct (.str s0)))
    (h2exp : f2.exported = true)
    (h2tags : ¬(f2.envTag = "" ∧ f2.defaultTag = ""))
    (h2val : f2.val = .ptrTo (.ptrTo (.direct (.str s0))))
    (h3exp : f3.exported = true)
    (h3tags : ¬(f3.envTag = "" ∧ f3.defaultTag = ""))
    (h3inv : resolveValuePointer f3.val = .invalid) :
    processField sys e f1 =
      .ok { f1 with val := .ptrTo (.direct (.str (cmpOr (sys.env f1.envTag) f1.defaultTag))) }
        e ∧
    processField sys e f2 =
      .ok { f2 with
          val := .ptrTo (.ptrTo (.direct (.str (cmpOr (sys.env f2.envTag) f2.defaultTag)))) }
        e ∧
    processField sys e f3 = .panicked "reflect: call of reflect.Value.Type on zero Value" ∧
    resolveValuePointer GoFieldRef.nilPtr = Resolved.invalid := by
  refine ⟨?_, ?_, ?_, rfl⟩
  · simp only [processField, h1exp, Bool.not_true, if_neg h1tags, h1val, resolveValuePointer,
      setResolved]
    simp
  · simp only [processField, h2exp, Bool.not_true, if_neg h2tags, h2val, resolveValuePointer,
      setResolved]
    simp
  · simp only [processField, h3exp, Bool.not_true, if_neg h3tags, h3inv]
    rfl

/-- Witness for C10 amended: a nil pointer string field panics, a non-nil
pointer string field and a double pointer field are populated through the
pointer from the environment. -/
theorem C10_pointer_resolution_witness :
    resolveValuePointer GoFieldRef.nilPtr = Resolved.invalid ∧
    processField ⟨fun _ => "v", "/work", fun _ => none, fun _ => none, fun _ => none⟩ New
        { name := "A", envTag := "E", val := .ptrTo (.direct (.str "")) } =
      .ok { name := "A", envTag := "E", val := .ptrTo (.direct (.str (cmpOr ((fun _ => "v") "E") ""))) } New ∧
    processField ⟨fun _ => "v", "/work", fun _ => none, fun _ => none, fun _ => none⟩ New
        { name := "B", envTag := "E", val := .ptrTo (.ptrTo (.direct (.str ""))) } =
      .ok { name := "B", envTag := "E", val := .ptrTo (.ptrTo (.direct (.str (cmpOr ((fun _ => "v") "E") "")))) } New ∧
    processField ⟨fun _ => "v", "/work", fun _ => none, fun _ => none, fun _ => none⟩ New
        { name := "C", envTag := "E", val := GoFieldRef.nilPtr } =
      .panicked "reflect: call of reflect.Value.Type on zero Value" := by
  have h := C10_pointer_resolution
    ⟨fun _ => "v", "/work", fun _ => none, fun _ => none, fun _ => none⟩ New
    { name := "A", envTag := "E", val := .ptrTo (.direct (.str "")) }
    { name := "B", envTag := "E", val := .ptrTo (.ptrTo (.direct (.str ""))) }
    { name := "C", envTag := "E", val := GoFieldRef.nilPtr }
    "" rfl (by decide) rfl rfl (by decide) rfl rfl (by decide) rfl
  exact ⟨h.2.2.2, h.1, h.2.1, h.2.2.1⟩
